import Mathlib

/-!
Shallow embedding of the paginated aggregation fetcher of `src/cap.py`
(the identical retry wrapper also appears in `src/strata.py`), together
with the spreadsheet "today's row" guard (cap.py, Step 2) and the job
around it.  Machine integers do not overflow here (Python ints are
unbounded), so page sums live in `ℤ` and counters in `ℕ`.
-/

namespace Cap

/-- Configuration constant, cap.py line 15. -/
def MAX_RETRIES : ℕ := 3

/-- Configuration constant (seconds between outer retries), cap.py line 16. -/
def RETRY_DELAY : ℕ := 2

/-- Configuration constant, cap.py line 139. -/
def MAX_CONCURRENT : ℕ := 6

/-- Configuration constant, cap.py line 140. -/
def BATCH_SIZE : ℕ := 18

/-! ## Page payload model (what one decoded page looks like to cap.py)

`fetch_single_page` (cap.py lines 142-180) inspects, in order: the HTTP
status of the response, the presence of a `<pre>` element, whether
`json.loads` succeeds, whether the parsed dict has an `'entries'` key,
and finally `int(entry.get('caps', 0))` for each entry.  Each record's
`caps` field is modelled by what `int(entry.get('caps', 0))` does with it. -/

/-- One record's `caps` field as seen by `int(entry.get('caps', 0))`
(cap.py line 171): the key may be absent (`get` returns the default `0`),
hold a value `int` coerces to `n`, or hold a value on which `int` raises
an exception whose text is `msg`. -/
inductive CapsField where
  | absent : CapsField
  | num (n : ℤ) : CapsField
  | bad (msg : String) : CapsField
deriving DecidableEq, Repr

/-- Parsed page payload: either the dict lacks the `'entries'` key
(cap.py line 168) or it holds a list of records. -/
inductive PageData where
  | noEntries : PageData
  | entries (l : List CapsField) : PageData
deriving DecidableEq, Repr

/-- Content of the `<pre>` element: `json.loads` either raises (message
`msg`) or yields a payload (cap.py line 166). -/
inductive PreContent where
  | malformed (msg : String) : PreContent
  | parsed (d : PageData) : PreContent
deriving DecidableEq, Repr

/-- What one attempt of `fetch_single_page` observes from the transport:
either the `goto` (or any other awaited call) raises — message `msg` —
or a response arrives with an HTTP status and an optional `<pre>`
element (cap.py lines 147-166). -/
inductive AttemptObs where
  | exn (msg : String) : AttemptObs
  | resp (status : ℕ) (pre : Option PreContent) : AttemptObs
deriving DecidableEq, Repr

/-- Embeds `sum(int(entry.get('caps', 0)) for entry in data['entries'])`
(cap.py line 171).  Python's `sum` consumes the generator left to right
and the first record on which `int` raises aborts the whole sum with
that exception; an absent key contributes the default `0`. -/
def pageSum : List CapsField → Except String ℤ
  | [] => .ok 0
  | .bad msg :: _ => .error msg
  | .absent :: rest => (pageSum rest).map (fun s => 0 + s)
  | .num n :: rest => (pageSum rest).map (fun s => n + s)

/-- Value a single record contributes when the page sum succeeds
(`int` of the field, absent key defaulting to 0). -/
def capsVal : CapsField → ℤ
  | .absent => 0
  | .num n => n
  | .bad _ => 0

/-- Whether a record's caps value makes `int` raise. -/
def isBad : CapsField → Bool
  | .bad _ => true
  | _ => false

/-- Result of one iteration of the `for attempt in range(2)` loop body of
`fetch_single_page` (cap.py lines 144-178): `success` returns the page
sum; `noRetryFail` is the `'entries' not in data` branch (line 168-169),
which returns a failure triple at once, on either attempt; `retryFail`
covers every path that, on attempt 0, sleeps 1s and continues — non-200
status (line 151), missing `<pre>` (line 159), and any exception caught
by the `except` clause (transport error, `json.loads` failure, `int`
coercion failure; lines 174-178). -/
inductive AttemptOutcome where
  | success (total : ℤ) : AttemptOutcome
  | noRetryFail (reason : String) : AttemptOutcome
  | retryFail (reason : String) : AttemptOutcome
deriving DecidableEq, Repr

/-- One iteration of the attempt loop of `fetch_single_page`
(cap.py lines 145-178), as a function of what the attempt observes. -/
def runAttempt : AttemptObs → AttemptOutcome
  | .exn msg => .retryFail msg
  | .resp status pre =>
    if status ≠ 200 then .retryFail ("HTTP " ++ toString status)
    else
      match pre with
      | none => .retryFail "No <pre> element found"
      | some (.malformed msg) => .retryFail msg
      | some (.parsed .noEntries) => .noRetryFail "No entries in response"
      | some (.parsed (.entries l)) =>
        match pageSum l with
        | .error msg => .retryFail msg
        | .ok s => .success s

/-- Embeds `fetch_single_page(page_number, page_instance)` (cap.py lines
142-180); `obs n` is what attempt `n` of the loop observes.  The loop
body runs at most twice (`range(2)`); a `retryFail` on attempt 0 falls
through to attempt 1, everything else returns.  On attempt 1 every
branch returns, so the trailing `return page_number, None,
"Max retries exceeded"` (line 180) is dead code and has no counterpart
here.  The function is total: no exception escapes it. -/
def fetch_single_page (page_number : ℕ) (obs : ℕ → AttemptObs) :
    ℕ × Option ℤ × Option String :=
  match runAttempt (obs 0) with
  | .success s => (page_number, some s, none)
  | .noRetryFail r => (page_number, none, some r)
  | .retryFail _ =>
    match runAttempt (obs 1) with
    | .success s => (page_number, some s, none)
    | .noRetryFail r => (page_number, none, some r)
    | .retryFail r => (page_number, none, some r)

/-- Number of iterations of the attempt loop that actually run for the
given observations: 2 exactly when attempt 0 takes a `continue` path. -/
def fetch_attempts_made (obs : ℕ → AttemptObs) : ℕ :=
  match runAttempt (obs 0) with
  | .retryFail _ => 2
  | _ => 1

/-- Seconds slept between attempts (`await asyncio.sleep(1)` on the
`attempt == 0` retry paths, cap.py lines 153/161/176).  The 0.5s pause
after a 200 response (line 157) is part of a single attempt, not a
retry delay, and is not recorded. -/
def fetch_retry_delays (obs : ℕ → AttemptObs) : List ℕ :=
  match runAttempt (obs 0) with
  | .retryFail _ => [1]
  | _ => []

/-! ## Batch scheduler (cap.py lines 183-216)

The batch loop is `for batch_start in range(1, total_pages + 1,
BATCH_SIZE)`, the chunk loop inside it is `for i in range(0,
len(batch_pages), MAX_CONCURRENT)` with `chunk =
batch_pages[i:i + MAX_CONCURRENT]`.  A Python `range(a, b, s)` with
`s > 0` enumerates `a, a+s, ...` and has `⌈(b-a)/s⌉` elements, i.e.
`(b - a + s - 1) / s` in truncated arithmetic. -/

/-- Batch start indices, `range(1, total_pages + 1, BATCH_SIZE)`
(cap.py line 183). -/
def batchStarts (total_pages : ℕ) : List ℕ :=
  List.range' 1 ((total_pages + BATCH_SIZE - 1) / BATCH_SIZE) BATCH_SIZE

/-- Pages of one batch: `list(range(batch_start, batch_end + 1))` with
`batch_end = min(batch_start + BATCH_SIZE - 1, total_pages)`
(cap.py lines 184-185). -/
def batchPages (batch_start total_pages : ℕ) : List ℕ :=
  List.range' batch_start (min (batch_start + BATCH_SIZE - 1) total_pages + 1 - batch_start)

/-- Chunk start offsets inside a batch,
`range(0, len(batch_pages), MAX_CONCURRENT)` (cap.py line 192). -/
def chunkStarts (len c : ℕ) : List ℕ :=
  List.range' 0 ((len + c - 1) / c) c

/-- The chunks `batch_pages[i:i + c]` for each chunk start `i`
(cap.py line 193); a Python slice `l[i:i+c]` is `(l.drop i).take c`. -/
def chunksOf (c : ℕ) (l : List ℕ) : List (List ℕ) :=
  (chunkStarts l.length c).map (fun i => (l.drop i).take c)

/-- Number of worker tabs opened for a batch:
`min(MAX_CONCURRENT, len(batch_pages))` (cap.py lines 187-190). -/
def workerCount (batch_pages : List ℕ) : ℕ :=
  min MAX_CONCURRENT batch_pages.length

/-- Worker index a chunk slot is assigned to:
`page_instances[j % len(page_instances)]` (cap.py line 196). -/
def assignedWorker (wc j : ℕ) : ℕ := j % wc

/-- Run state accumulated by the scheduler (cap.py lines 135-137). -/
structure RunState where
  grand_total : ℤ
  processed_pages : ℕ
  failed_pages : List ℕ
deriving DecidableEq, Repr

/-- Folding one gathered result into the run state (cap.py lines
205-211): a result with an error appends its page number to
`failed_pages`; otherwise `grand_total += page_total` and
`processed_pages += 1`.  In the success branch the source adds
`page_total` directly; `fetch_single_page` always returns `some` total
there (lemma `fetch_single_page_wf`), so the `getD 0` default is never
taken.  The `isinstance(result, Exception)` guard (lines 202-204) has
no counterpart because `fetch_single_page` is total and never yields an
exception to `asyncio.gather`. -/
def foldResult (st : RunState) : ℕ × Option ℤ × Option String → RunState
  | (page_num, _, some _) =>
    { st with failed_pages := st.failed_pages ++ [page_num] }
  | (_, page_total, none) =>
    { st with grand_total := st.grand_total + page_total.getD 0,
              processed_pages := st.processed_pages + 1 }

/-- All fetch results of a run, in the order the scheduler folds them:
batches sequentially, chunks sequentially inside a batch, and inside a
chunk in task order — `asyncio.gather` returns results in the order the
tasks were passed (cap.py lines 183-211).  `obs p` gives the transport
observations for page `p`. -/
def runResults (total_pages : ℕ) (obs : ℕ → ℕ → AttemptObs) :
    List (ℕ × Option ℤ × Option String) :=
  ((batchStarts total_pages).map (fun bs =>
    ((chunksOf MAX_CONCURRENT (batchPages bs total_pages)).map (fun ch =>
      ch.map (fun p => fetch_single_page p (obs p)))).flatten)).flatten

/-- Run state after all batches complete (cap.py lines 135-137, 183-211). -/
def finalState (total_pages : ℕ) (obs : ℕ → ℕ → AttemptObs) : RunState :=
  (runResults total_pages obs).foldl foldResult ⟨0, 0, []⟩

/-- Failure-rate gate (cap.py lines 220-230): only when `failed_pages`
is non-empty is `failure_rate = len(failed_pages) / total_pages`
computed, and the run raises (modelled as `.error`, carrying the failed
count and the page total, as the exception message does) exactly when
it exceeds 0.1; otherwise the run returns `grand_total`. -/
def gate (grand_total : ℤ) (failed_pages : List ℕ) (total_pages : ℕ) :
    Except (ℕ × ℕ) ℤ :=
  if failed_pages.isEmpty then .ok grand_total
  else if (1 : ℚ) / 10 < (failed_pages.length : ℚ) / (total_pages : ℚ) then
    .error (failed_pages.length, total_pages)
  else .ok grand_total

/-- One whole run of `scrape_cap_points` after pagination discovery
(cap.py lines 135-230): fetch every page batch by batch, fold the
outcomes, then apply the failure-rate gate. -/
def scrape_cap_points (total_pages : ℕ) (obs : ℕ → ℕ → AttemptObs) :
    Except (ℕ × ℕ) ℤ :=
  gate (finalState total_pages obs).grand_total
    (finalState total_pages obs).failed_pages total_pages

/-! ## Outer retry wrapper (cap.py lines 52-70; identical in
strata.py lines 52-70)

`with_retries` runs `for attempt in range(MAX_RETRIES)`; a successful
attempt returns at once, a failing one stores the exception and, unless
it was the last iteration, sleeps `RETRY_DELAY` seconds; after the loop
the last exception is re-raised.  `op n` is the outcome of executing
the wrapped operation for the `n`-th time.  The result records
`(outcome, number of attempts executed, delays slept)`. -/

/-- The retry loop over the remaining attempt indices.  The `[]` case
corresponds to `raise last_exception` with no attempt ever made, which
Python only reaches when `MAX_RETRIES = 0`; it is unreachable for the
configured `MAX_RETRIES = 3`.  A singleton list is the last iteration:
no sleep before re-raising. -/
def retry_loop (op : ℕ → Except String ℤ) :
    List ℕ → Except String ℤ × ℕ × List ℕ
  | [] => (.error "", 0, [])
  | [a] =>
    match op a with
    | .ok v => (.ok v, 1, [])
    | .error e => (.error e, 1, [])
  | a :: rest =>
    match op a with
    | .ok v => (.ok v, 1, [])
    | .error _ =>
      match retry_loop op rest with
      | (out, n, ds) => (out, n + 1, RETRY_DELAY :: ds)

/-- Embeds `with_retries(func, ...)` (cap.py lines 52-70): outcome of
running the loop over `range(MAX_RETRIES)`. -/
def with_retries (op : ℕ → Except String ℤ) : Except String ℤ :=
  (retry_loop op (List.range MAX_RETRIES)).1

/-! ## Today's-row guard and the job around it (cap.py lines 33-49 and
236-249)

The sheet is modelled as its rows: column A holds a date string, column
B the value cell.  `col_values(1)` is the list of column-A entries;
`cell(row, 2).value` is truthy exactly when the B cell holds a written
value (a written numeric total always reads back as a non-empty string,
so the B cell is `Option ℤ` and truthiness is `isSome`). -/

/-- Spreadsheet rows: (column A date string, column B value cell). -/
abbrev Sheet := List (String × Option ℤ)

/-- Result of the module-level Step 2 (cap.py lines 33-49): either the
script calls `exit()` (today's row already filled — process status 0),
or it proceeds with a 1-based row index and the possibly extended
sheet. -/
inductive Step2Result where
  | earlyExit : Step2Result
  | proceed (row_idx : ℕ) (sheet : Sheet) : Step2Result
deriving DecidableEq, Repr

/-- Embeds cap.py lines 36-49: look today's date up in column A; if the
row exists and its B cell is filled, exit early; if it exists unfilled,
proceed on that row; otherwise append a new row holding the date and
proceed on it. -/
def step2 (sheet : Sheet) (today_str : String) : Step2Result :=
  let col_a := sheet.map Prod.fst
  if today_str ∈ col_a then
    let row_idx := col_a.indexOf today_str + 1
    match (sheet[row_idx - 1]?).bind Prod.snd with
    | some _ => .earlyExit
    | none => .proceed row_idx sheet
  else
    .proceed (col_a.length + 1) (sheet ++ [(today_str, none)])

/-- Writes column B of the given 0-based row position
(`sheet.update` on range `B{row_idx}`, cap.py lines 240-244). -/
def setB : Sheet → ℕ → ℤ → Sheet
  | [], _, _ => []
  | r :: rs, 0, v => (r.fst, some v) :: rs
  | r :: rs, n + 1, v => r :: setB rs n v

/-- Observable outcome of one invocation of the whole job: final sheet,
number of page fetches performed, and process exit status. -/
structure JobResult where
  sheet : Sheet
  fetches : ℕ
  status : ℕ
deriving DecidableEq, Repr

/-- One invocation of the whole cap.py job around the scraper: Step 2
first (cap.py lines 33-49); on `proceed`, `with_retries(scrape_cap_points)`
runs — abstracted here as `scrape` (`some caps` if some attempt returns
a total, `none` if all retries are exhausted, in which case the
uncaught exception ends the process with a non-zero status and nothing
is written) — performing `pagesFetched` page fetches, and on success
`main` writes the total to column B of the chosen row (cap.py lines
236-249). -/
def runJob (sheet : Sheet) (today_str : String) (pagesFetched : ℕ)
    (scrape : Option ℤ) : JobResult :=
  match step2 sheet today_str with
  | .earlyExit => ⟨sheet, 0, 0⟩
  | .proceed row_idx sheet2 =>
    match scrape with
    | none => ⟨sheet2, pagesFetched, 1⟩
    | some caps => ⟨setB sheet2 (row_idx - 1) caps, pagesFetched, 0⟩

/-! ## Helper lemmas -/

/-- Stepping a ceiling division `⌈x / c⌉` down by one batch of `c`. -/
lemma ceil_div_step {c x k : ℕ} (hc : 0 < c) (h : (x + c - 1) / c = k + 1) :
    (x - c + c - 1) / c = k := by
  rcases le_or_lt x c with hx | hx
  · have hx1 : 1 ≤ x := by
      by_contra h0
      have hx0 : x = 0 := by omega
      have : (x + c - 1) / c = 0 := Nat.div_eq_of_lt (by omega)
      omega
    have h2 : (x - c + c - 1) / c = 0 := Nat.div_eq_of_lt (by omega)
    have h3 : (x + c - 1) / c < 2 := Nat.div_lt_of_lt_mul (by omega)
    omega
  · have hx2 : x + c - 1 = (x - 1) + c := by omega
    rw [hx2, Nat.add_div_right _ hc] at h
    have hx3 : x - c + c - 1 = x - 1 := by omega
    rw [hx3]
    omega

/-- A ceiling division `⌈x / c⌉` is zero only when `x` is. -/
lemma ceil_div_eq_zero {c x : ℕ} (hc : 0 < c) (h : (x + c - 1) / c = 0) :
    x = 0 := by
  by_contra h0
  have h1 : 1 ≤ (x + c - 1) / c := (Nat.le_div_iff_mul_le hc).2 (by omega)
  omega

/-- The chunk loop visits every element of the list exactly once:
concatenating the slices `l[i:i+c]` for `i = 0, c, 2c, ...` gives back
`l` (stated for the loop tail starting at offset `i`). -/
lemma chunks_flatten_aux {c : ℕ} (hc : 0 < c) (l : List ℕ) :
    ∀ k i : ℕ, k = (l.length - i + c - 1) / c →
      ((List.range' i k c).map (fun j => (l.drop j).take c)).flatten = l.drop i := by
  intro k
  induction k with
  | zero =>
    intro i hk
    have h0 : l.length - i = 0 := ceil_div_eq_zero hc hk.symm
    simp [List.drop_eq_nil_of_le (by omega : l.length ≤ i)]
  | succ k ih =>
    intro i hk
    rw [List.range'_succ, List.map_cons, List.flatten_cons,
      ih (i + c) ?_]
    · have hdd : l.drop (i + c) = (l.drop i).drop c := by
        rw [List.drop_drop]
      rw [hdd, List.take_append_drop]
    · have h1 := ceil_div_step hc hk.symm
      rw [show l.length - (i + c) = l.length - i - c from by omega]
      omega

/-- The slices taken by the chunk loop reassemble the batch. -/
lemma chunksOf_flatten {c : ℕ} (hc : 0 < c) (l : List ℕ) :
    (chunksOf c l).flatten = l := by
  have := chunks_flatten_aux hc l ((l.length + c - 1) / c) 0 (by simp)
  simpa [chunksOf, chunkStarts] using this

/-- The batch loop visits every page of `1..total_pages` exactly once
(stated for the loop tail starting at batch start `s`). -/
lemma batches_flatten_aux (total : ℕ) :
    ∀ k s : ℕ, k = (total + 1 - s + BATCH_SIZE - 1) / BATCH_SIZE →
      ((List.range' s k BATCH_SIZE).map (fun bs => batchPages bs total)).flatten
        = List.range' s (total + 1 - s) := by
  have hB : 0 < BATCH_SIZE := by decide
  intro k
  induction k with
  | zero =>
    intro s hk
    have h0 : total + 1 - s = 0 := ceil_div_eq_zero hB hk.symm
    simp [h0]
  | succ k ih =>
    intro s hk
    have hs : s ≤ total := by
      by_contra h0
      have hz : total + 1 - s = 0 := by omega
      rw [hz] at hk
      have : (0 + BATCH_SIZE - 1) / BATCH_SIZE = 0 := Nat.div_eq_of_lt (by omega)
      omega
    rw [List.range'_succ, List.map_cons, List.flatten_cons, ih (s + BATCH_SIZE) ?_]
    · unfold batchPages
      rcases le_or_lt (s + BATCH_SIZE - 1) total with hle | hlt
      · rw [show min (s + BATCH_SIZE - 1) total + 1 - s = BATCH_SIZE by omega]
        rw [List.range'_append_1]
        congr 1
        omega
      · rw [show min (s + BATCH_SIZE - 1) total + 1 - s = total + 1 - s by omega]
        rw [show total + 1 - (s + BATCH_SIZE) = 0 by omega]
        simp
    · have h1 := ceil_div_step hB hk.symm
      rw [show total + 1 - (s + BATCH_SIZE) = total + 1 - s - BATCH_SIZE from by omega]
      omega

/-- The batches partition the 1-based page range. -/
lemma batches_flatten (total : ℕ) :
    ((batchStarts total).map (fun bs => batchPages bs total)).flatten
      = List.range' 1 total := by
  have := batches_flatten_aux total ((total + BATCH_SIZE - 1) / BATCH_SIZE) 1 (by simp)
  simpa [batchStarts] using this

/-- The run fetches exactly the pages `1..total_pages`, in order. -/
lemma runResults_eq_map (total : ℕ) (obs : ℕ → ℕ → AttemptObs) :
    runResults total obs
      = (List.range' 1 total).map (fun p => fetch_single_page p (obs p)) := by
  unfold runResults
  have hc : 0 < MAX_CONCURRENT := by decide
  rw [List.map_congr_left (g := fun bs =>
      (batchPages bs total).map (fun p => fetch_single_page p (obs p)))
    (fun bs _ => by rw [← List.map_flatten, chunksOf_flatten hc])]
  rw [show (batchStarts total).map (fun bs =>
        (batchPages bs total).map (fun p => fetch_single_page p (obs p)))
      = ((batchStarts total).map (fun bs => batchPages bs total)).map
          (List.map (fun p => fetch_single_page p (obs p))) by
        rw [List.map_map]
        rfl]
  rw [← List.map_flatten, batches_flatten]

/-- `fetch_single_page` reports a page total exactly when it reports no
error: the success branch of the fold never reads a missing total. -/
lemma fetch_single_page_wf (p : ℕ) (obs : ℕ → AttemptObs) :
    (fetch_single_page p obs).2.2 = none → ∃ s, (fetch_single_page p obs).2.1 = some s := by
  unfold fetch_single_page
  cases runAttempt (obs 0) <;> simp
  cases runAttempt (obs 1) <;> simp

/-- Page index recorded when a result is a failure. -/
def failedOf : ℕ × Option ℤ × Option String → Option ℕ
  | (page_num, _, some _) => some page_num
  | (_, _, none) => none

/-- Amount a result contributes to the grand total. -/
def succContrib : ℕ × Option ℤ × Option String → ℤ
  | (_, _, some _) => 0
  | (_, page_total, none) => page_total.getD 0

/-- Every folded result bumps exactly one of the two counters. -/
lemma foldl_counts (rs : List (ℕ × Option ℤ × Option String)) :
    ∀ st : RunState,
      (rs.foldl foldResult st).processed_pages
          + (rs.foldl foldResult st).failed_pages.length
        = st.processed_pages + st.failed_pages.length + rs.length := by
  induction rs with
  | nil => intro st; simp
  | cons r rest ih =>
    intro st
    obtain ⟨p, t, e⟩ := r
    cases e <;> simp [foldResult, ih] <;> omega

/-- The failed-pages list accumulated by the fold. -/
lemma foldl_failed (rs : List (ℕ × Option ℤ × Option String)) :
    ∀ st : RunState,
      (rs.foldl foldResult st).failed_pages
        = st.failed_pages ++ rs.filterMap failedOf := by
  induction rs with
  | nil => intro st; simp
  | cons r rest ih =>
    intro st
    obtain ⟨p, t, e⟩ := r
    cases e <;> simp [foldResult, ih, failedOf]

/-- The grand total accumulated by the fold. -/
lemma foldl_grand (rs : List (ℕ × Option ℤ × Option String)) :
    ∀ st : RunState,
      (rs.foldl foldResult st).grand_total
        = st.grand_total + (rs.map succContrib).sum := by
  induction rs with
  | nil => intro st; simp
  | cons r rest ih =>
    intro st
    obtain ⟨p, t, e⟩ := r
    cases e <;> simp [foldResult, ih, succContrib] <;> ring

/-- The ratio test of the gate, stated over the naturals. -/
lemma tenth_lt_div_iff (f t : ℕ) :
    (1 : ℚ) / 10 < (f : ℚ) / (t : ℚ) ↔ 0 < t ∧ t < 10 * f := by
  rcases Nat.eq_zero_or_pos t with h | h
  · subst h
    norm_num
  · have ht : (0 : ℚ) < (t : ℚ) := by exact_mod_cast h
    rw [div_lt_div_iff₀ (by norm_num) ht]
    constructor
    · intro hlt
      refine ⟨h, ?_⟩
      have h2 : (t : ℚ) < 10 * (f : ℚ) := by linarith
      exact_mod_cast h2
    · intro ⟨_, hlt⟩
      have h2 : (t : ℚ) < 10 * (f : ℚ) := by exact_mod_cast hlt
      linarith

/-- The gate, with its ratio test rephrased over the naturals (used to
evaluate the gate at concrete inputs). -/
lemma gate_eval (grand_total : ℤ) (failed_pages : List ℕ) (total_pages : ℕ) :
    gate grand_total failed_pages total_pages
      = if failed_pages.isEmpty then .ok grand_total
        else if 0 < total_pages ∧ total_pages < 10 * failed_pages.length then
          .error (failed_pages.length, total_pages)
        else .ok grand_total := by
  unfold gate
  simp only [tenth_lt_div_iff]

/-! ## Claim theorems -/

/-- C4: for every totalPages the scheduler partitions the 1-based page
range into consecutive batches of size at most BATCH_SIZE = 18,
allocates min(MAX_CONCURRENT, batch length) workers per batch, and
splits each batch into chunks of size at most MAX_CONCURRENT = 6
assigned round-robin (worker = slot mod workerCount); for totalPages =
40 the batches are [1..18], [19..36], [37..40], batch 1 dispatches 3
chunks of 6, and batch 3 dispatches 1 chunk of 4 using 4 workers. -/
theorem C4_scheduler_partition :
    (∀ total : ℕ,
      ((batchStarts total).map (fun bs => batchPages bs total)).flatten
        = List.range' 1 total)
    ∧ (∀ total bs : ℕ, (batchPages bs total).length ≤ BATCH_SIZE)
    ∧ (∀ l : List ℕ, ∀ ch ∈ chunksOf MAX_CONCURRENT l, ch.length ≤ MAX_CONCURRENT)
    ∧ (∀ l : List ℕ, workerCount l = min MAX_CONCURRENT l.length)
    ∧ (∀ wc j : ℕ, assignedWorker wc j = j % wc)
    ∧ batchStarts 40 = [1, 19, 37]
    ∧ batchPages 1 40 = List.range' 1 18
    ∧ batchPages 19 40 = List.range' 19 18
    ∧ batchPages 37 40 = [37, 38, 39, 40]
    ∧ (chunksOf MAX_CONCURRENT (batchPages 1 40)).map List.length = [6, 6, 6]
    ∧ chunksOf MAX_CONCURRENT (batchPages 37 40) = [[37, 38, 39, 40]]
    ∧ workerCount (batchPages 37 40) = 4 := by
  refine ⟨batches_flatten, ?_, ?_, fun l => rfl, fun wc j => rfl,
    by decide, by decide, by decide, by decide, by decide, by decide, by decide⟩
  · intro total bs
    simp only [batchPages, List.length_range', BATCH_SIZE]
    omega
  · intro l ch hch
    obtain ⟨i, _, rfl⟩ := List.mem_map.1 (by simpa [chunksOf] using hch)
    simp [List.length_take]

/-- C4 witness: the chunk-size bound applied to the last batch of the
totalPages = 40 scenario. -/
theorem C4_scheduler_partition_witness :
    ([37, 38, 39, 40] : List ℕ).length ≤ MAX_CONCURRENT :=
  C4_scheduler_partition.2.2.1 (batchPages 37 40) [37, 38, 39, 40] (by decide)

/-- C8: within each concurrently dispatched chunk the round-robin
assignment slot mod workerCount is injective, because a chunk never
holds more pages than the min(MAX_CONCURRENT, batch length) allocated
workers — so no worker resource serves two page requests of the same
chunk. -/
theorem C8_worker_exclusive :
    ∀ batch_pages : List ℕ, ∀ ch ∈ chunksOf MAX_CONCURRENT batch_pages,
      ∀ j1 j2 : ℕ, j1 < ch.length → j2 < ch.length →
        assignedWorker (workerCount batch_pages) j1
          = assignedWorker (workerCount batch_pages) j2 → j1 = j2 := by
  intro l ch hch j1 j2 h1 h2 heq
  obtain ⟨i, _, rfl⟩ := List.mem_map.1 (by simpa [chunksOf] using hch)
  have hlen : ((l.drop i).take MAX_CONCURRENT).length ≤ workerCount l := by
    simp only [workerCount, List.length_take, List.length_drop]
    omega
  rw [assignedWorker, assignedWorker,
    Nat.mod_eq_of_lt (lt_of_lt_of_le h1 hlen),
    Nat.mod_eq_of_lt (lt_of_lt_of_le h2 hlen)] at heq
  exact heq

/-- C8 witness: injectivity instantiated on the single chunk of a
three-page batch. -/
theorem C8_worker_exclusive_witness : (1 : ℕ) = 1 :=
  C8_worker_exclusive [10, 11, 12] [10, 11, 12] (by decide) 1 1
    (by decide) (by decide) rfl

/-- C1: a completed run raises the high-failure-rate error carrying
(failedCount, totalPages) exactly when failedPages/totalPages exceeds
0.10; at or below the threshold the run returns grandTotal without
error, even when some pages failed. -/
theorem C1_failure_rate_gate :
    ∀ (total_pages : ℕ) (obs : ℕ → ℕ → AttemptObs),
      (scrape_cap_points total_pages obs
          = .error ((finalState total_pages obs).failed_pages.length, total_pages)
        ↔ (1 : ℚ) / 10
            < ((finalState total_pages obs).failed_pages.length : ℚ) / (total_pages : ℚ))
      ∧ (((finalState total_pages obs).failed_pages.length : ℚ) / (total_pages : ℚ)
            ≤ (1 : ℚ) / 10
          → scrape_cap_points total_pages obs
              = .ok (finalState total_pages obs).grand_total) := by
  intro total obs
  have key := tenth_lt_div_iff (finalState total obs).failed_pages.length total
  unfold scrape_cap_points
  constructor
  · rw [gate_eval, key]
    by_cases hE : (finalState total obs).failed_pages.isEmpty
    · have h0 : (finalState total obs).failed_pages = [] := List.isEmpty_iff.mp hE
      rw [h0] at hE ⊢
      simp
    · by_cases hC : 0 < total ∧ total < 10 * (finalState total obs).failed_pages.length
      · simp [hE, hC]
      · simp [hE, hC]
  · intro hle
    have hnot : ¬ ((1 : ℚ) / 10
        < ((finalState total obs).failed_pages.length : ℚ) / (total : ℚ)) :=
      not_lt.mpr hle
    rw [key] at hnot
    rw [gate_eval]
    by_cases hE : (finalState total obs).failed_pages.isEmpty
    · simp [hE]
    · simp [hE, hnot]

/-- C1 witness: a 10-page run in which exactly one page fails (both
attempts see an exception) sits exactly at the threshold and returns
the grand total of the nine successful pages. -/
theorem C1_failure_rate_gate_witness :
    scrape_cap_points 10
        (fun p _ => if p = 1 then .exn "timeout"
          else .resp 200 (some (.parsed (.entries [.num 7]))))
      = .ok (finalState 10
          (fun p _ => if p = 1 then .exn "timeout"
            else .resp 200 (some (.parsed (.entries [.num 7]))))).grand_total := by
  refine (C1_failure_rate_gate 10
    (fun p _ => if p = 1 then .exn "timeout"
      else .resp 200 (some (.parsed (.entries [.num 7]))))).2 ?_
  have hlen : (finalState 10
      (fun p _ => if p = 1 then .exn "timeout"
        else .resp 200 (some (.parsed (.entries [.num 7]))))).failed_pages.length = 1 := by
    decide
  rw [hlen]
  norm_num

/-- C10: whenever failedPages is empty — in particular for a run over
zero pages, where no page is dispatched — the failure-rate division is
never taken (the guard short-circuits the gate to success), and the run
returns grandTotal, which is 0 for totalPages = 0. -/
theorem C10_empty_failed_no_division :
    (∀ (grand_total : ℤ) (total_pages : ℕ), gate grand_total [] total_pages = .ok grand_total)
    ∧ (∀ (total_pages : ℕ) (obs : ℕ → ℕ → AttemptObs),
        (finalState total_pages obs).failed_pages = [] →
          scrape_cap_points total_pages obs
            = .ok (finalState total_pages obs).grand_total)
    ∧ (∀ obs : ℕ → ℕ → AttemptObs, scrape_cap_points 0 obs = .ok 0) := by
  refine ⟨fun gt tp => rfl, ?_, fun obs => rfl⟩
  intro total obs h
  unfold scrape_cap_points
  rw [h]
  rfl

/-- C10 witness: a one-page run whose page succeeds has an empty failed
list and returns its grand total. -/
theorem C10_empty_failed_no_division_witness :
    scrape_cap_points 1 (fun _ _ => .resp 200 (some (.parsed (.entries [.num 4]))))
      = .ok (finalState 1
          (fun _ _ => .resp 200 (some (.parsed (.entries [.num 4]))))).grand_total :=
  C10_empty_failed_no_division.2.1 1
    (fun _ _ => .resp 200 (some (.parsed (.entries [.num 4])))) rfl

/-- Every failure result carries `some` error, so a result with no
error is never recorded as failed. -/
lemma failedOf_eq_none (r : ℕ × Option ℤ × Option String)
    (h : r.2.2 = none) : failedOf r = none := by
  obtain ⟨p, t, e⟩ := r
  cases e with
  | none => rfl
  | some _ => simp at h

/-- C3: at run completion processedCount + len(failedPages) equals
totalPages — each of the totalPages pages is folded exactly once,
either into the processed count or into the failed list — and a fully
successful run has processedCount = totalPages and failedPages = []. -/
theorem C3_outcome_partition :
    ∀ (total_pages : ℕ) (obs : ℕ → ℕ → AttemptObs),
      ((finalState total_pages obs).processed_pages
          + (finalState total_pages obs).failed_pages.length = total_pages)
      ∧ ((∀ p : ℕ, (fetch_single_page p (obs p)).2.2 = none) →
          (finalState total_pages obs).processed_pages = total_pages
          ∧ (finalState total_pages obs).failed_pages = []) := by
  intro total obs
  have hlen : (runResults total obs).length = total := by
    rw [runResults_eq_map]
    simp
  have hcount : (finalState total obs).processed_pages
      + (finalState total obs).failed_pages.length = total := by
    have h2 := foldl_counts (runResults total obs) ⟨0, 0, []⟩
    simpa [finalState, hlen] using h2
  refine ⟨hcount, fun hall => ?_⟩
  have hfail : (finalState total obs).failed_pages = [] := by
    unfold finalState
    rw [foldl_failed]
    simp only [List.nil_append, List.filterMap_eq_nil_iff]
    intro r hr
    rw [runResults_eq_map] at hr
    obtain ⟨p, _, rfl⟩ := List.mem_map.1 hr
    exact failedOf_eq_none _ (hall p)
  have h0 : (finalState total obs).failed_pages.length = 0 := by
    rw [hfail]
    rfl
  exact ⟨by omega, hfail⟩

/-- C3 witness: a fully successful two-page run processes both pages
and fails none. -/
theorem C3_outcome_partition_witness :
    (finalState 2 (fun _ _ => .resp 200 (some (.parsed (.entries []))))).processed_pages = 2
    ∧ (finalState 2 (fun _ _ => .resp 200 (some (.parsed (.entries []))))).failed_pages = [] :=
  (C3_outcome_partition 2 (fun _ _ => .resp 200 (some (.parsed (.entries []))))).2
    (fun _ => rfl)

/-- C7: the grand total is the sum of the per-page contributions of the
fetch results, unchanged under any permutation of the result list (so
any completion order of the concurrent fetches within a chunk yields
the same grandTotal), and each successful page's contribution is itself
the sum of its records' numeric fields. -/
theorem C7_grand_total_order_independent :
    (∀ rs rs2 : List (ℕ × Option ℤ × Option String), rs.Perm rs2 →
      (rs.foldl foldResult ⟨0, 0, []⟩).grand_total
        = (rs2.foldl foldResult ⟨0, 0, []⟩).grand_total)
    ∧ (∀ (total_pages : ℕ) (obs : ℕ → ℕ → AttemptObs),
        (finalState total_pages obs).grand_total
          = ((runResults total_pages obs).map succContrib).sum)
    ∧ (∀ (l : List CapsField) (s : ℤ), pageSum l = .ok s → s = (l.map capsVal).sum) := by
  refine ⟨?_, ?_, ?_⟩
  · intro rs rs2 hperm
    rw [foldl_grand, foldl_grand]
    simp only [zero_add]
    exact (hperm.map succContrib).sum_eq
  · intro total obs
    unfold finalState
    rw [foldl_grand]
    simp
  · intro l
    induction l with
    | nil =>
      intro s h
      simp [pageSum] at h
      simp [h.symm]
    | cons f rest ih =>
      intro s h
      cases f with
      | bad msg => simp [pageSum] at h
      | absent =>
        rcases hrec : pageSum rest with e | v
        · simp [pageSum, hrec, Except.map] at h
        · simp [pageSum, hrec, Except.map] at h
          simp [capsVal, ← h, ih v hrec]
      | num n =>
        rcases hrec : pageSum rest with e | v
        · simp [pageSum, hrec, Except.map] at h
        · simp [pageSum, hrec, Except.map] at h
          simp [capsVal, ← h, ih v hrec]

/-- C7 witness: swapping the completion order of one successful and one
failed result leaves the grand total unchanged. -/
theorem C7_grand_total_order_independent_witness :
    (([(1, some 3, none), (2, none, some "boom")] :
        List (ℕ × Option ℤ × Option String)).foldl foldResult ⟨0, 0, []⟩).grand_total
      = (([(2, none, some "boom"), (1, some 3, none)] :
          List (ℕ × Option ℤ × Option String)).foldl foldResult ⟨0, 0, []⟩).grand_total :=
  C7_grand_total_order_independent.1 _ _ (by decide)

/-- C2 counterexample: a first attempt that decodes cleanly but lacks
the 'entries' container — per the spec a decode failure — returns a
Failure immediately after a single attempt, with no 1-second delay and
no second attempt, contradicting the claim that every first-attempt
decode failure is retried exactly once before a Failure is returned. -/
theorem C2_per_page_retry_counterexample :
    fetch_single_page 7 (fun _ => .resp 200 (some (.parsed .noEntries)))
      = (7, none, some "No entries in response")
    ∧ fetch_attempts_made (fun _ => .resp 200 (some (.parsed .noEntries))) = 1
    ∧ fetch_attempts_made (fun _ => .resp 200 (some (.parsed .noEntries))) ≠ 2
    ∧ fetch_retry_delays (fun _ => .resp 200 (some (.parsed .noEntries))) = [] :=
  ⟨rfl, rfl, by decide, rfl⟩

/-- C2 (amended): on a first-attempt transport error, non-200 status,
missing pre element, or payload-parsing/coercion exception the fetch
waits 1 second and makes exactly one more attempt, returning a Failure
only after the second failure; but a successfully parsed payload that
lacks the entries container returns a Failure immediately on the first
attempt with no retry; in every case the fetch returns a result triple
rather than raising. -/
theorem C2_per_page_retry_amended :
    ∀ (page_number : ℕ) (obs : ℕ → AttemptObs),
      (∀ s : ℤ, runAttempt (obs 0) = .success s →
        fetch_single_page page_number obs = (page_number, some s, none)
        ∧ fetch_attempts_made obs = 1 ∧ fetch_retry_delays obs = [])
      ∧ (∀ r : String, runAttempt (obs 0) = .noRetryFail r →
        fetch_single_page page_number obs = (page_number, none, some r)
        ∧ fetch_attempts_made obs = 1 ∧ fetch_retry_delays obs = [])
      ∧ (∀ r0 : String, runAttempt (obs 0) = .retryFail r0 →
        fetch_attempts_made obs = 2 ∧ fetch_retry_delays obs = [1]
        ∧ (∀ s : ℤ, runAttempt (obs 1) = .success s →
            fetch_single_page page_number obs = (page_number, some s, none))
        ∧ (∀ r : String, runAttempt (obs 1) = .noRetryFail r →
            fetch_single_page page_number obs = (page_number, none, some r))
        ∧ (∀ r : String, runAttempt (obs 1) = .retryFail r →
            fetch_single_page page_number obs = (page_number, none, some r))) := by
  intro pn obs
  refine ⟨fun s h => ?_, fun r h => ?_, fun r0 h => ?_⟩
  · exact ⟨by simp [fetch_single_page, h], by simp [fetch_attempts_made, h],
      by simp [fetch_retry_delays, h]⟩
  · exact ⟨by simp [fetch_single_page, h], by simp [fetch_attempts_made, h],
      by simp [fetch_retry_delays, h]⟩
  · refine ⟨by simp [fetch_attempts_made, h], by simp [fetch_retry_delays, h],
      fun s h1 => ?_, fun r h1 => ?_, fun r h1 => ?_⟩
    · simp [fetch_single_page, h, h1]
    · simp [fetch_single_page, h, h1]
    · simp [fetch_single_page, h, h1]

/-- C2 witness: a 500-status first attempt is retried once after a
1-second delay and the second 500 yields the Failure triple. -/
theorem C2_per_page_retry_amended_witness :
    fetch_attempts_made (fun _ => .resp 500 none) = 2
    ∧ fetch_retry_delays (fun _ => .resp 500 none) = [1]
    ∧ fetch_single_page 9 (fun _ => .resp 500 none) = (9, none, some "HTTP 500") := by
  have h := (C2_per_page_retry_amended 9 (fun _ => .resp 500 none)).2.2 "HTTP 500" rfl
  exact ⟨h.1, h.2.1, h.2.2.2.2 "HTTP 500" rfl⟩

/-- C5 counterexample: a page whose single record carries a caps value
that int() cannot coerce fails the page — both attempts raise and the
fetch returns a Failure — rather than contributing 0 to the page sum as
the claim states. -/
theorem C5_page_decoder_counterexample :
    pageSum [CapsField.bad "boom"] = .error "boom"
    ∧ pageSum [CapsField.bad "boom"] ≠ .ok 0
    ∧ fetch_single_page 3 (fun _ => .resp 200 (some (.parsed (.entries [.bad "boom"]))))
        = (3, none, some "boom") :=
  ⟨rfl, by simp [pageSum], rfl⟩

/-- C5 (amended): the page decoder fails the page exactly when the
entries container is missing, the payload is not parseable, or some
record's caps value raises on integer coercion (the first such record
aborts the page sum); a record whose caps field is merely absent
contributes 0 to the page sum rather than failing the page. -/
theorem C5_page_decoder_amended :
    (∀ l : List CapsField, (∀ f ∈ l, isBad f = false) →
      pageSum l = .ok ((l.map capsVal).sum))
    ∧ (∀ (pre : List CapsField) (msg : String) (suf : List CapsField),
        (∀ f ∈ pre, isBad f = false) →
          pageSum (pre ++ .bad msg :: suf) = .error msg)
    ∧ runAttempt (.resp 200 (some (.parsed .noEntries)))
        = .noRetryFail "No entries in response"
    ∧ (∀ m : String, runAttempt (.resp 200 (some (.malformed m))) = .retryFail m)
    ∧ capsVal .absent = 0 := by
  refine ⟨?_, ?_, rfl, fun m => rfl, rfl⟩
  · intro l
    induction l with
    | nil => intro _; rfl
    | cons f rest ih =>
      intro h
      have hrest := ih (fun g hg => h g (List.mem_cons_of_mem f hg))
      cases f with
      | bad msg => simpa [isBad] using h (.bad msg) (List.mem_cons_self _ _)
      | absent => simp [pageSum, hrest, Except.map, capsVal]
      | num n => simp [pageSum, hrest, Except.map, capsVal]
  · intro pre msg suf
    induction pre with
    | nil => intro _; rfl
    | cons f rest ih =>
      intro h
      have hrest := ih (fun g hg => h g (List.mem_cons_of_mem f hg))
      cases f with
      | bad m => simpa [isBad] using h (.bad m) (List.mem_cons_self _ _)
      | absent => simp [pageSum, hrest, Except.map]
      | num n => simp [pageSum, hrest, Except.map]

/-- C5 witness: a page with an absent caps field and a field of 5 sums
to 5 — the absent record contributes 0 and does not fail the page. -/
theorem C5_page_decoder_amended_witness :
    pageSum [CapsField.absent, CapsField.num 5] = .ok 5 := by
  have h := C5_page_decoder_amended.1 [CapsField.absent, CapsField.num 5] (by decide)
  simpa using h

/-- C6: with_retries returns a successful attempt's result at once
without further attempts; each failed attempt with attempts remaining
is followed by a fixed 2-second delay and one more execution; at most
MAX_RETRIES = 3 attempts run in total, and after the third failure the
last error is re-raised with no delay after the final attempt and no
fallback value.  (`retry_loop op (List.range MAX_RETRIES)` returns the
wrapper's outcome together with the number of attempts executed and the
list of delays slept.) -/
theorem C6_with_retries :
    ∀ (op : ℕ → Except String ℤ) (v : ℤ) (e0 e1 e2 : String),
      (op 0 = .ok v → retry_loop op (List.range MAX_RETRIES) = (.ok v, 1, []))
      ∧ (op 0 = .error e0 → op 1 = .ok v →
          retry_loop op (List.range MAX_RETRIES) = (.ok v, 2, [RETRY_DELAY]))
      ∧ (op 0 = .error e0 → op 1 = .error e1 → op 2 = .ok v →
          retry_loop op (List.range MAX_RETRIES)
            = (.ok v, 3, [RETRY_DELAY, RETRY_DELAY]))
      ∧ (op 0 = .error e0 → op 1 = .error e1 → op 2 = .error e2 →
          retry_loop op (List.range MAX_RETRIES)
            = (.error e2, 3, [RETRY_DELAY, RETRY_DELAY]))
      ∧ (op 0 = .ok v → with_retries op = .ok v)
      ∧ (op 0 = .error e0 → op 1 = .error e1 → op 2 = .error e2 →
          with_retries op = .error e2) := by
  intro op v e0 e1 e2
  have hr : List.range MAX_RETRIES = [0, 1, 2] := rfl
  refine ⟨fun h0 => ?_, fun h0 h1 => ?_, fun h0 h1 h2 => ?_, fun h0 h1 h2 => ?_,
    fun h0 => ?_, fun h0 h1 h2 => ?_⟩
  · simp [hr, retry_loop, h0]
  · simp [hr, retry_loop, h0, h1]
  · simp [hr, retry_loop, h0, h1, h2]
  · simp [hr, retry_loop, h0, h1, h2]
  · simp [with_retries, hr, retry_loop, h0]
  · simp [with_retries, hr, retry_loop, h0, h1, h2]

/-- C6 witness: an operation failing once then succeeding is retried
after one 2-second delay and its value returned on the second of two
attempts. -/
theorem C6_with_retries_witness :
    retry_loop (fun n => if n = 0 then Except.error "a" else Except.ok 9)
        (List.range MAX_RETRIES)
      = (Except.ok 9, 2, [RETRY_DELAY]) :=
  (C6_with_retries (fun n => if n = 0 then Except.error "a" else Except.ok 9)
    9 "a" "" "").2.1 rfl rfl

/-- Writing column B never changes column A. -/
lemma setB_map_fst : ∀ (l : Sheet) (n : ℕ) (v : ℤ),
    (setB l n v).map Prod.fst = l.map Prod.fst := by
  intro l
  induction l with
  | nil => intro n v; rfl
  | cons r rs ih =>
    intro n v
    cases n with
    | zero => simp [setB]
    | succ m => simp [setB, ih]

/-- Reading back the row whose B column was just written. -/
lemma setB_getElem? : ∀ (l : Sheet) (n : ℕ) (v : ℤ),
    (setB l n v)[n]? = (l[n]?).map (fun r => (r.1, some v)) := by
  intro l
  induction l with
  | nil => intro n v; simp [setB]
  | cons r rs ih =>
    intro n v
    cases n with
    | zero => simp [setB]
    | succ m => simp [setB, ih]

/-- Step 2 exits early whenever today's row exists and its B cell holds
a value. -/
lemma step2_earlyExit (sheet : Sheet) (today_str : String) (v : ℤ)
    (hmem : today_str ∈ sheet.map Prod.fst)
    (hcell : (sheet[(sheet.map Prod.fst).indexOf today_str]?).bind Prod.snd = some v) :
    step2 sheet today_str = .earlyExit := by
  unfold step2
  simp only [hmem, if_true, Nat.add_sub_cancel]
  rw [hcell]

/-- What holds when Step 2 proceeds: either today's row existed with an
empty B cell, or the row was appended fresh. -/
lemma step2_proceed_cases (sheet : Sheet) (today_str : String) (row : ℕ)
    (sheet2 : Sheet) (h : step2 sheet today_str = .proceed row sheet2) :
    (today_str ∈ sheet.map Prod.fst
      ∧ row = (sheet.map Prod.fst).indexOf today_str + 1
      ∧ sheet2 = sheet
      ∧ (sheet[(sheet.map Prod.fst).indexOf today_str]?).bind Prod.snd = none)
    ∨ (today_str ∉ sheet.map Prod.fst
      ∧ row = sheet.length + 1
      ∧ sheet2 = sheet ++ [(today_str, none)]) := by
  unfold step2 at h
  by_cases hmem : today_str ∈ sheet.map Prod.fst
  · left
    simp only [hmem, if_true, Nat.add_sub_cancel] at h
    rcases hcell : (sheet[(sheet.map Prod.fst).indexOf today_str]?).bind Prod.snd with _ | w
    · rw [hcell] at h
      injection h with h1 h2
      exact ⟨hmem, h1.symm, h2.symm, rfl⟩
    · rw [hcell] at h
      exact absurd h (by simp)
  · right
    simp only [hmem, if_false] at h
    injection h with h1 h2
    refine ⟨hmem, ?_, h2.symm⟩
    simpa using h1.symm

/-- C9: when the sink already holds a value for the current date key
(today's row exists with a non-empty value cell) the job exits early
with status 0, performs zero page fetches and leaves every cell
unchanged; consequently, after any invocation of the whole job that
ends with status 0, a second invocation for the same date performs
zero fetches and leaves the sink unchanged. -/
theorem C9_idempotent_sink_guard :
    (∀ (sheet : Sheet) (today_str : String) (pagesFetched : ℕ)
        (scrape : Option ℤ) (v : ℤ),
      today_str ∈ sheet.map Prod.fst →
      (sheet[(sheet.map Prod.fst).indexOf today_str]?).bind Prod.snd = some v →
      runJob sheet today_str pagesFetched scrape = ⟨sheet, 0, 0⟩)
    ∧ (∀ (sheet : Sheet) (today_str : String) (n1 n2 : ℕ) (s1 s2 : Option ℤ),
        (runJob sheet today_str n1 s1).status = 0 →
        runJob (runJob sheet today_str n1 s1).sheet today_str n2 s2
          = ⟨(runJob sheet today_str n1 s1).sheet, 0, 0⟩) := by
  constructor
  · intro sheet today_str n sc v hmem hcell
    rw [runJob, step2_earlyExit sheet today_str v hmem hcell]
  · intro sheet today_str n1 n2 s1 s2 hst
    rcases h2 : step2 sheet today_str with _ | ⟨row, sheet2⟩
    · simp [runJob, h2]
    · rcases s1 with _ | caps
      · simp [runJob, h2] at hst
      · have hmain : step2 (setB sheet2 (row - 1) caps) today_str = .earlyExit := by
          rcases step2_proceed_cases sheet today_str row sheet2 h2 with
            ⟨hmem, hrow, hsh, _⟩ | ⟨hmem, hrow, hsh⟩
          · subst hsh
            have hidx : row - 1 = (sheet2.map Prod.fst).indexOf today_str := by omega
            rw [hidx]
            have hlt : (sheet2.map Prod.fst).indexOf today_str < sheet2.length := by
              have := List.indexOf_lt_length.mpr hmem
              simpa using this
            refine step2_earlyExit _ today_str caps ?_ ?_
            · rw [setB_map_fst]
              exact hmem
            · rw [setB_map_fst, setB_getElem?,
                List.getElem?_eq_getElem hlt]
              simp
          · subst hsh
            have hidx : row - 1 = sheet.length := by omega
            rw [hidx]
            refine step2_earlyExit _ today_str caps ?_ ?_
            · rw [setB_map_fst]
              simp
            · rw [setB_map_fst]
              have hfst : (sheet ++ [(today_str, none)]).map Prod.fst
                  = sheet.map Prod.fst ++ [today_str] := by simp
              rw [hfst, List.indexOf_append_of_not_mem hmem]
              simp only [List.indexOf_cons_self, Nat.add_zero, List.length_map]
              rw [setB_getElem?, List.getElem?_concat_length]
              simp
        simp [runJob, h2, hmain]

/-- C9 witness: a sheet whose only row is today's with a filled value
cell makes the job a status-0 no-op with zero fetches. -/
theorem C9_idempotent_sink_guard_witness :
    runJob [("12/10/2026", some 5)] "12/10/2026" 40 (some 9)
      = ⟨[("12/10/2026", some 5)], 0, 0⟩ :=
  C9_idempotent_sink_guard.1 [("12/10/2026", some 5)] "12/10/2026" 40 (some 9) 5
    (by decide) rfl

end Cap
